import Mathlib

/-!
Shallow embedding of the STOCKS percentage-change detector of
`src/app_final.py` (the `pct_tab1` block, lines 886-944, the rising/falling
split at lines 1103-1104, the per-stock statistics at lines 1087-1098 and the
insufficient-data branch at line 1124).

Dates are embedded as integers (days); the day-resolution timestamps of the
source make `(EndDate - StartDate).dt.days` exact integer day differences.
Measure values are embedded as rationals; a pandas `NaN` percentage change is
embedded as `Option.none`.
-/

namespace HB

/-- One row of the STOCKS table: an entity symbol, a calendar date (days) and
the numeric measure (`NetValue_in_Cr`). -/
structure Observation where
  symbol : String
  date : ℤ
  value : ℚ
  deriving DecidableEq

/-- One row of `merged_data` (src/app_final.py lines 918-928): start and end
points of one symbol, `DaysBetween`, and `PctChange` where the zero baseline
(and the `±inf` replacement of line 928) is `none`. -/
structure ChangeRecord where
  symbol : String
  startDate : ℤ
  startValue : ℚ
  endDate : ℤ
  endValue : ℚ
  daysBetween : ℤ
  pctChange : Option ℚ
  deriving DecidableEq

/-- Date-ascending comparison used by `sort_values("Date")` (line 899). -/
def dateLE (a b : Observation) : Prop := a.date ≤ b.date

instance : DecidableRel dateLE := fun a b => inferInstanceAs (Decidable (a.date ≤ b.date))

instance : IsTotal Observation dateLE := ⟨fun a b => Int.le_total a.date b.date⟩

instance : IsTrans Observation dateLE := ⟨fun _ _ _ hab hbc => le_trans hab hbc⟩

/-- Lines 889-895: `max_date` of the filtered data, `lookback_date = max_date -
Timedelta(days=lookback)`, and the subset with `Date >= lookback_date`.  An
empty table has no maximum date and selects nothing. -/
def lookbackData (rows : List Observation) (lookbackDays : ℤ) : List Observation :=
  match (rows.map (fun o => o.date)).max? with
  | none => []
  | some m => rows.filter (fun o => decide (m - lookbackDays ≤ o.date))

/-- Line 899/900: the window rows in date-ascending order (a stable sort). -/
def sortByDate (rows : List Observation) : List Observation :=
  rows.insertionSort dateLE

/-- The rows of one symbol, in the order of the date-sorted frame
(`groupby("Symbol")` preserves the row order of the sorted frame). -/
def symbolRows (w : List Observation) (s : String) : List Observation :=
  (sortByDate w).filter (fun o => o.symbol == s)

/-- Line 899: the `first()` row of a symbol group of the date-sorted frame. -/
def startObs (w : List Observation) (s : String) : Option Observation :=
  (symbolRows w s).head?

/-- Line 900: the `last()` row of a symbol group of the date-sorted frame. -/
def endObs (w : List Observation) (s : String) : Option Observation :=
  (symbolRows w s).getLast?

/-- Lexicographic code-point comparison of character lists, the order Python
uses on strings. -/
def charListLe : List Char → List Char → Bool
  | [], _ => true
  | _ :: _, [] => false
  | a :: as, b :: bs => if a < b then true else if b < a then false else charListLe as bs

/-- Lexicographic code-point comparison of symbols. -/
def strLe (a b : String) : Bool := charListLe a.data b.data

/-- The group keys of `groupby("Symbol")`, sorted (pandas sorts group keys). -/
def symbolKeys (w : List Observation) : List String :=
  ((w.map (fun o => o.symbol)).dedup).insertionSort (fun a b => strLe a b = true)

/-- Lines 903-928 for one symbol: the merged start/end row with `DaysBetween`
and `PctChange`.  A zero `StartValue` is replaced by NaN before the division
(line 925), so `PctChange` is `none` exactly when the start value is zero. -/
def mkRecord (w : List Observation) (s : String) : Option ChangeRecord :=
  match startObs w s, endObs w s with
  | some a, some b =>
      some { symbol := s, startDate := a.date, startValue := a.value,
             endDate := b.date, endValue := b.value,
             daysBetween := b.date - a.date,
             pctChange := if a.value = 0 then none
                          else some ((b.value - a.value) / a.value * 100) }
  | _, _ => none

/-- Lines 918-928: `merged_data`, one row per symbol of the window. -/
def mergedData (rows : List Observation) (lb : ℤ) : List ChangeRecord :=
  (symbolKeys (lookbackData rows lb)).filterMap (fun s => mkRecord (lookbackData rows lb) s)

/-- Line 931: `min_days_required = max(1, lookback * 0.5)`. -/
def minDaysRequired (lb : ℤ) : ℚ := max 1 ((lb : ℚ) / 2)

/-- Line 932: keep rows with `DaysBetween >= min_days_required`. -/
def validData (rows : List Observation) (lb : ℤ) : List ChangeRecord :=
  (mergedData rows lb).filter (fun r => decide (minDaysRequired lb ≤ (r.daysBetween : ℚ)))

/-- Line 935: `dropna(subset=["PctChange"])`. -/
def validDataDropna (rows : List Observation) (lb : ℤ) : List ChangeRecord :=
  (validData rows lb).filter (fun r => r.pctChange.isSome)

/-- Lines 937-940: `(PctChange >= threshold) | (PctChange <= -threshold)`; a
NaN compares false on both sides, as in pandas. -/
def isSignificant (th : ℚ) (r : ChangeRecord) : Bool :=
  match r.pctChange with
  | some p => decide (th ≤ p) || decide (p ≤ -th)
  | none => false

/-- Line 943: `AbsPctChange`. -/
def absPctChange (r : ChangeRecord) : ℚ := |r.pctChange.getD 0|

/-- Descending-by-absolute-change comparison of line 944
(`sort_values("AbsPctChange", ascending=False)`). -/
def absDesc (a b : ChangeRecord) : Prop := absPctChange b ≤ absPctChange a

instance : DecidableRel absDesc := fun a b =>
  inferInstanceAs (Decidable (absPctChange b ≤ absPctChange a))

instance : IsTotal ChangeRecord absDesc := ⟨fun a b => le_total (absPctChange b) (absPctChange a)⟩

instance : IsTrans ChangeRecord absDesc := ⟨fun _ _ _ hab hbc => le_trans hbc hab⟩

/-- Lines 937-944: the significant result set, ordered by absolute percentage
change descending. -/
def significantChanges (rows : List Observation) (lb : ℤ) (th : ℚ) : List ChangeRecord :=
  ((validDataDropna rows lb).filter (isSignificant th)).insertionSort absDesc

/-- Line 1103: `significant_changes[significant_changes["PctChange"] > 0]`. -/
def risingStocks (rows : List Observation) (lb : ℤ) (th : ℚ) : List ChangeRecord :=
  (significantChanges rows lb th).filter (fun r => decide (0 < r.pctChange.getD 0))

/-- Line 1104: `significant_changes[significant_changes["PctChange"] < 0]`. -/
def fallingStocks (rows : List Observation) (lb : ℤ) (th : ℚ) : List ChangeRecord :=
  (significantChanges rows lb th).filter (fun r => decide (r.pctChange.getD 0 < 0))

/-- The three outcomes of the `pct_tab1` analysis: the warning of line 1124
(empty lookback window), the info message of line 1122 (no significant
changes), or the displayed result table. -/
inductive AnalysisOutcome where
  | insufficientData : AnalysisOutcome
  | noSignificantChanges : AnalysisOutcome
  | results : List ChangeRecord → AnalysisOutcome
  deriving DecidableEq

/-- Lines 897, 947, 1122, 1124: an empty window produces the insufficient-data
warning; an empty significant set produces the informational message; otherwise
the result table is shown.  No branch raises. -/
def runStocksPctAnalysis (rows : List Observation) (lb : ℤ) (th : ℚ) : AnalysisOutcome :=
  if lookbackData rows lb = [] then AnalysisOutcome.insufficientData
  else if significantChanges rows lb th = [] then AnalysisOutcome.noSignificantChanges
  else AnalysisOutcome.results (significantChanges rows lb th)

/-- Line 1014: `lookback_data[lookback_data["Symbol"] == selected_stock]`. -/
def stockTrendData (rows : List Observation) (lb : ℤ) (s : String) : List Observation :=
  (lookbackData rows lb).filter (fun o => o.symbol == s)

/-- The measure column of the selected stock's window rows. -/
def trendValues (rows : List Observation) (lb : ℤ) (s : String) : List ℚ :=
  (stockTrendData rows lb s).map (fun o => o.value)

/-- Line 1091: `Series.mean()`. -/
def seriesMean (l : List ℚ) : ℚ := l.sum / l.length

/-- Line 1092: `Series.max()`. -/
def seriesMax (l : List ℚ) : ℚ := l.foldl max (l.head?.getD 0)

/-- Line 1093: `Series.min()`. -/
def seriesMin (l : List ℚ) : ℚ := l.foldl min (l.head?.getD 0)

/-- Line 1094: the square of `Series.std()` — the sample variance, pandas
default `ddof=1`. -/
def seriesVar (l : List ℚ) : ℚ :=
  ((l.map (fun x => (x - seriesMean l) ^ 2)).sum) / ((l.length : ℚ) - 1)

/-- Line 1094: `Series.std()`, the sample standard deviation (`ddof=1`). -/
noncomputable def seriesStd (l : List ℚ) : ℝ := Real.sqrt ((seriesVar l : ℚ) : ℝ)

/-- Line 1095: "Days Tracked" is `len(stock_trend_data)`. -/
def daysTracked (rows : List Observation) (lb : ℤ) (s : String) : ℕ :=
  (stockTrendData rows lb s).length

/-! Helper lemmas about the embedded pipeline. -/

theorem mem_sortByDate {w : List Observation} {o : Observation} :
    o ∈ sortByDate w ↔ o ∈ w :=
  List.mem_insertionSort dateLE

theorem sorted_sortByDate (w : List Observation) : (sortByDate w).Pairwise dateLE :=
  List.sorted_insertionSort dateLE w

theorem mem_symbolRows {w : List Observation} {s : String} {o : Observation} :
    o ∈ symbolRows w s ↔ o ∈ w ∧ o.symbol = s := by
  simp [symbolRows, List.mem_filter, mem_sortByDate]

theorem sorted_symbolRows (w : List Observation) (s : String) :
    (symbolRows w s).Pairwise dateLE :=
  (sorted_sortByDate w).filter _

theorem head?_min {l : List Observation} {a : Observation}
    (hs : l.Pairwise dateLE) (h : l.head? = some a) :
    a ∈ l ∧ ∀ x ∈ l, x = a ∨ a.date ≤ x.date := by
  cases l with
  | nil => simp at h
  | cons b t =>
      have hab : a = b := by simpa using h.symm
      subst hab
      refine ⟨List.mem_cons_self _ _, ?_⟩
      intro x hx
      rcases List.mem_cons.mp hx with hx | hx
      · exact Or.inl hx
      · exact Or.inr ((List.pairwise_cons.mp hs).1 x hx)

theorem getLast?_max {l : List Observation} {b : Observation}
    (hs : l.Pairwise dateLE) (h : l.getLast? = some b) :
    b ∈ l ∧ ∀ x ∈ l, x = b ∨ x.date ≤ b.date := by
  rcases List.eq_nil_or_concat l with rfl | ⟨t, c, rfl⟩
  · simp at h
  · rw [List.concat_eq_append] at hs h ⊢
    have hcb : c = b := by simpa [List.getLast?_concat] using h
    subst hcb
    have hrel : ∀ x ∈ t, dateLE x c := by
      intro x hx
      exact (List.pairwise_append.mp hs).2.2 x hx c (List.mem_singleton_self c)
    refine ⟨List.mem_append_right t (List.mem_singleton_self c), ?_⟩
    intro x hx
    rcases List.mem_append.mp hx with hx | hx
    · exact Or.inr (hrel x hx)
    · exact Or.inl (List.mem_singleton.mp hx)

theorem startObs_spec {w : List Observation} {s : String} {a : Observation}
    (h : startObs w s = some a) :
    a ∈ w ∧ a.symbol = s ∧ ∀ o ∈ w, o.symbol = s → a.date ≤ o.date := by
  obtain ⟨hmem, hmin⟩ := head?_min (sorted_symbolRows w s) h
  obtain ⟨haw, has⟩ := mem_symbolRows.mp hmem
  refine ⟨haw, has, ?_⟩
  intro o how hos
  rcases hmin o (mem_symbolRows.mpr ⟨how, hos⟩) with rfl | hle
  · exact le_refl _
  · exact hle

theorem endObs_spec {w : List Observation} {s : String} {b : Observation}
    (h : endObs w s = some b) :
    b ∈ w ∧ b.symbol = s ∧ ∀ o ∈ w, o.symbol = s → o.date ≤ b.date := by
  obtain ⟨hmem, hmax⟩ := getLast?_max (sorted_symbolRows w s) h
  obtain ⟨hbw, hbs⟩ := mem_symbolRows.mp hmem
  refine ⟨hbw, hbs, ?_⟩
  intro o how hos
  rcases hmax o (mem_symbolRows.mpr ⟨how, hos⟩) with rfl | hle
  · exact le_refl _
  · exact hle

theorem mkRecord_fields {w : List Observation} {s : String} {rec : ChangeRecord}
    (h : mkRecord w s = some rec) :
    ∃ a b, startObs w s = some a ∧ endObs w s = some b ∧
      rec = { symbol := s, startDate := a.date, startValue := a.value,
              endDate := b.date, endValue := b.value,
              daysBetween := b.date - a.date,
              pctChange := if a.value = 0 then none
                           else some ((b.value - a.value) / a.value * 100) } := by
  unfold mkRecord at h
  rcases ha : startObs w s with _ | a <;> rcases hb : endObs w s with _ | b <;>
    rw [ha, hb] at h <;> simp at h
  exact ⟨a, b, rfl, rfl, h.symm⟩

theorem mkRecord_symbol {w : List Observation} {s : String} {rec : ChangeRecord}
    (h : mkRecord w s = some rec) : rec.symbol = s := by
  obtain ⟨a, b, _, _, hrec⟩ := mkRecord_fields h
  rw [hrec]

theorem mem_mergedData {rows : List Observation} {lb : ℤ} {rec : ChangeRecord}
    (h : rec ∈ mergedData rows lb) :
    mkRecord (lookbackData rows lb) rec.symbol = some rec := by
  unfold mergedData at h
  rcases List.mem_filterMap.mp h with ⟨s, _, hmk⟩
  have hsym := mkRecord_symbol hmk
  rw [hsym]
  exact hmk

theorem mem_mergedData_of_mkRecord {rows : List Observation} {lb : ℤ} {s : String}
    {o : Observation} {rec : ChangeRecord} (ho : o ∈ lookbackData rows lb)
    (hos : o.symbol = s) (hmk : mkRecord (lookbackData rows lb) s = some rec) :
    rec ∈ mergedData rows lb := by
  unfold mergedData
  refine List.mem_filterMap.mpr ⟨s, ?_, hmk⟩
  unfold symbolKeys
  refine (List.mem_insertionSort _).mpr ?_
  exact List.mem_dedup.mpr (hos ▸ List.mem_map_of_mem (fun o => o.symbol) ho)

theorem mem_validData {rows : List Observation} {lb : ℤ} {rec : ChangeRecord} :
    rec ∈ validData rows lb ↔
      rec ∈ mergedData rows lb ∧ minDaysRequired lb ≤ (rec.daysBetween : ℚ) := by
  simp [validData, List.mem_filter]

theorem mem_validDataDropna {rows : List Observation} {lb : ℤ} {rec : ChangeRecord} :
    rec ∈ validDataDropna rows lb ↔
      rec ∈ validData rows lb ∧ rec.pctChange.isSome := by
  simp [validDataDropna, List.mem_filter]

theorem mem_significantChanges {rows : List Observation} {lb : ℤ} {th : ℚ}
    {rec : ChangeRecord} :
    rec ∈ significantChanges rows lb th ↔
      rec ∈ validDataDropna rows lb ∧ isSignificant th rec = true := by
  simp [significantChanges, List.mem_insertionSort, List.mem_filter]

theorem isSignificant_iff {th : ℚ} {rec : ChangeRecord} :
    isSignificant th rec = true ↔ ∃ p, rec.pctChange = some p ∧ th ≤ |p| := by
  unfold isSignificant
  rcases hp : rec.pctChange with _ | p
  · simp
  · simp only [Bool.or_eq_true, decide_eq_true_eq]
    constructor
    · rintro (h | h)
      · exact ⟨p, rfl, le_abs.mpr (Or.inl h)⟩
      · exact ⟨p, rfl, le_abs.mpr (Or.inr (le_neg.mp h))⟩
    · rintro ⟨q, hq, habs⟩
      have hpq : p = q := by simpa using hq
      rw [← hpq] at habs
      rcases le_abs.mp habs with h | h
      · exact Or.inl h
      · exact Or.inr (le_neg.mpr h)

/-! Sample data used by the witnesses. -/

/-- A stock falling from 100 to 50 over four days. -/
def fallRows : List Observation := [⟨"F", 0, 100⟩, ⟨"F", 4, 50⟩]

/-- The change record the detector derives from `fallRows`. -/
def fallRec : ChangeRecord := ⟨"F", 0, 100, 4, 50, 4, some (-50)⟩

/-- A stock whose start observation has measure value exactly 0. -/
def zeroRows : List Observation := [⟨"Z", 0, 0⟩, ⟨"Z", 4, 40⟩]

/-- A stock rising by exactly 0.99 percent over four days. -/
def borderRows : List Observation := [⟨"B", 0, 100⟩, ⟨"B", 4, 10099 / 100⟩]

/-- The change record the detector derives from `borderRows`. -/
def borderRec : ChangeRecord := ⟨"B", 0, 100, 4, 10099 / 100, 4, some (99 / 100)⟩

/-- A stock rising by exactly 1.00 percent over four days. -/
def onePctRows : List Observation := [⟨"A", 0, 100⟩, ⟨"A", 4, 101⟩]

/-- The change record the detector derives from `onePctRows`. -/
def onePctRec : ChangeRecord := ⟨"A", 0, 100, 4, 101, 4, some 1⟩

/-- A stock with a single observation inside the window. -/
def singleObsRows : List Observation := [⟨"S", 4, 500⟩]

/-! The claims. -/

/-- C1: for every input table and parameters, an entity whose start observation
(earliest in the lookback window) has measure value exactly 0 never appears in
the significant result set, for any end value and any threshold; the zero
baseline flows through as an undefined (`none`) percentage change that the
dropna step removes, never as an error, a 0 or an infinity. -/
theorem zero_start_value_excluded (rows : List Observation) (lb : ℤ) (th : ℚ)
    (s : String) (a : Observation)
    (hstart : startObs (lookbackData rows lb) s = some a) (hzero : a.value = 0) :
    ∀ rec ∈ significantChanges rows lb th, rec.symbol ≠ s := by
  intro rec hmem heq
  obtain ⟨hvd, _⟩ := mem_significantChanges.mp hmem
  obtain ⟨hv, hsome⟩ := mem_validDataDropna.mp hvd
  have hmd := (mem_validData.mp hv).1
  have hmk := mem_mergedData hmd
  rw [heq] at hmk
  obtain ⟨a', b', ha', hb', hrec⟩ := mkRecord_fields hmk
  have haa : a' = a := Option.some.inj (ha'.symm.trans hstart)
  rw [hrec] at hsome
  rw [haa] at hsome
  simp [hzero] at hsome

/-- C1 witness: the zero-baseline entity `Z` of `zeroRows` is excluded no
matter the threshold. -/
theorem zero_start_value_excluded_witness :
    startObs (lookbackData zeroRows 7) "Z" = some ⟨"Z", 0, 0⟩ ∧
    (⟨"Z", 0, 0⟩ : Observation).value = 0 ∧
    ∀ rec ∈ significantChanges zeroRows 7 1, rec.symbol ≠ "Z" :=
  ⟨by with_unfolding_all decide, rfl,
   zero_start_value_excluded zeroRows 7 1 "Z" ⟨"Z", 0, 0⟩ (by with_unfolding_all decide) rfl⟩

/-- C2: every record of the significant result set satisfies the
minimum-coverage bound: its day span is at least `max 1 (lookback_days * 0.5)`. -/
theorem significant_min_coverage (rows : List Observation) (lb : ℤ) (th : ℚ)
    (rec : ChangeRecord) (h : rec ∈ significantChanges rows lb th) :
    max 1 ((lb : ℚ) / 2) ≤ (rec.daysBetween : ℚ) := by
  have hv := (mem_validDataDropna.mp (mem_significantChanges.mp h).1).1
  exact (mem_validData.mp hv).2

/-- C2 witness: the record of `fallRows` is significant and spans 4 days,
at least `max 1 (7 * 0.5) = 3.5`. -/
theorem significant_min_coverage_witness :
    fallRec ∈ significantChanges fallRows 7 1 ∧
    max 1 (((7 : ℤ) : ℚ) / 2) ≤ ((fallRec.daysBetween : ℤ) : ℚ) :=
  ⟨by set_option maxRecDepth 2500 in with_unfolding_all decide,
   significant_min_coverage fallRows 7 1 fallRec
     (by set_option maxRecDepth 2500 in with_unfolding_all decide)⟩

/-- C3: among the records that pass the minimum-coverage filter and have a
defined percentage change, a record is in the significant result set iff the
absolute percentage change meets the threshold (a greater-or-equal
comparison). -/
theorem significant_iff_abs_threshold (rows : List Observation) (lb : ℤ) (th : ℚ)
    (rec : ChangeRecord) (h : rec ∈ validDataDropna rows lb) :
    rec ∈ significantChanges rows lb th ↔
      ∃ p, rec.pctChange = some p ∧ th ≤ |p| := by
  rw [mem_significantChanges, isSignificant_iff]
  exact and_iff_right h

/-- C3 witness: at the minimum threshold 1, the 0.99-percent record of
`borderRows` passes coverage and dropna yet is excluded, while the
1.00-percent record of `onePctRows` is included. -/
theorem significant_iff_abs_threshold_witness :
    borderRec ∈ validDataDropna borderRows 7 ∧
    (borderRec ∈ significantChanges borderRows 7 1 ↔
      ∃ p, borderRec.pctChange = some p ∧ 1 ≤ |p|) ∧
    borderRec ∉ significantChanges borderRows 7 1 ∧
    onePctRec ∈ significantChanges onePctRows 7 1 := by
  have hlbB : lookbackData borderRows 7 = borderRows := by
    unfold lookbackData borderRows
    norm_num [List.max?]
  have hsoB : startObs (lookbackData borderRows 7) "B" = some ⟨"B", 0, 100⟩ := by
    rw [hlbB]
    unfold startObs symbolRows sortByDate borderRows
    norm_num [List.insertionSort, List.orderedInsert, dateLE]
  have heoB : endObs (lookbackData borderRows 7) "B" = some ⟨"B", 4, 10099 / 100⟩ := by
    rw [hlbB]
    unfold endObs symbolRows sortByDate borderRows
    norm_num [List.insertionSort, List.orderedInsert, dateLE, List.getLast?]
  have hmkB : mkRecord (lookbackData borderRows 7) "B" = some borderRec := by
    unfold mkRecord
    rw [hsoB, heoB]
    norm_num [borderRec]
  have hoB : (⟨"B", 0, 100⟩ : Observation) ∈ lookbackData borderRows 7 := by
    rw [hlbB]
    unfold borderRows
    exact List.mem_cons_self _ _
  have hvdB : borderRec ∈ validDataDropna borderRows 7 := by
    refine mem_validDataDropna.mpr ⟨mem_validData.mpr
      ⟨mem_mergedData_of_mkRecord hoB rfl hmkB, ?_⟩, rfl⟩
    show minDaysRequired 7 ≤ ((4 : ℤ) : ℚ)
    norm_num [minDaysRequired]
  have hiff := significant_iff_abs_threshold borderRows 7 1 borderRec hvdB
  refine ⟨hvdB, hiff, ?_, ?_⟩
  · intro hmem
    obtain ⟨p, hp, habs⟩ := hiff.mp hmem
    have hp' : p = 99 / 100 := by simpa [borderRec] using hp.symm
    rw [hp', abs_of_nonneg (by norm_num : (0 : ℚ) ≤ 99 / 100)] at habs
    norm_num at habs
  · have hmkA : mkRecord (lookbackData onePctRows 7) "A" = some onePctRec := by
      set_option maxRecDepth 2500 in with_unfolding_all decide
    have hoA : (⟨"A", 0, 100⟩ : Observation) ∈ lookbackData onePctRows 7 := by
      with_unfolding_all decide
    have hvdA : onePctRec ∈ validDataDropna onePctRows 7 := by
      refine mem_validDataDropna.mpr ⟨mem_validData.mpr
        ⟨mem_mergedData_of_mkRecord hoA rfl hmkA, ?_⟩, rfl⟩
      show minDaysRequired 7 ≤ ((4 : ℤ) : ℚ)
      norm_num [minDaysRequired]
    exact (significant_iff_abs_threshold onePctRows 7 1 onePctRec hvdA).mpr
      ⟨1, rfl, by norm_num⟩

/-- C4: every entity with at least one observation in the window gets a merged
record whose start point is a window observation of the entity with minimal
date, whose end point is one with maximal date, and whose percentage change is
`(end - start) / start * 100` whenever the start value is nonzero. -/
theorem detector_start_end_pct (rows : List Observation) (lb : ℤ) (s : String)
    (o : Observation) (ho : o ∈ lookbackData rows lb) (hos : o.symbol = s) :
    ∃ rec, mkRecord (lookbackData rows lb) s = some rec ∧
      rec ∈ mergedData rows lb ∧
      (∃ a, a ∈ lookbackData rows lb ∧ a.symbol = s ∧
        (∀ q ∈ lookbackData rows lb, q.symbol = s → a.date ≤ q.date) ∧
        rec.startDate = a.date ∧ rec.startValue = a.value) ∧
      (∃ b, b ∈ lookbackData rows lb ∧ b.symbol = s ∧
        (∀ q ∈ lookbackData rows lb, q.symbol = s → q.date ≤ b.date) ∧
        rec.endDate = b.date ∧ rec.endValue = b.value) ∧
      (rec.startValue ≠ 0 →
        rec.pctChange =
          some ((rec.endValue - rec.startValue) / rec.startValue * 100)) := by
  have hmemsr : o ∈ symbolRows (lookbackData rows lb) s := mem_symbolRows.mpr ⟨ho, hos⟩
  obtain ⟨a, ha⟩ : ∃ a, startObs (lookbackData rows lb) s = some a := by
    unfold startObs
    cases hsr : symbolRows (lookbackData rows lb) s with
    | nil => rw [hsr] at hmemsr; exact absurd hmemsr (List.not_mem_nil o)
    | cons x t => exact ⟨x, rfl⟩
  obtain ⟨b, hb⟩ : ∃ b, endObs (lookbackData rows lb) s = some b := by
    unfold endObs
    rcases List.eq_nil_or_concat (symbolRows (lookbackData rows lb) s) with hE | ⟨t, c, hc⟩
    · rw [hE] at hmemsr; exact absurd hmemsr (List.not_mem_nil o)
    · rw [hc, List.concat_eq_append, List.getLast?_concat]; exact ⟨c, rfl⟩
  have hmk : mkRecord (lookbackData rows lb) s =
      some { symbol := s, startDate := a.date, startValue := a.value,
             endDate := b.date, endValue := b.value,
             daysBetween := b.date - a.date,
             pctChange := if a.value = 0 then none
                          else some ((b.value - a.value) / a.value * 100) } := by
    unfold mkRecord
    rw [ha, hb]
  refine ⟨_, hmk, mem_mergedData_of_mkRecord ho hos hmk, ?_, ?_, ?_⟩
  · obtain ⟨haw, has, hmin⟩ := startObs_spec ha
    exact ⟨a, haw, has, hmin, rfl, rfl⟩
  · obtain ⟨hbw, hbs, hmax⟩ := endObs_spec hb
    exact ⟨b, hbw, hbs, hmax, rfl, rfl⟩
  · intro hnz
    have hnz' : a.value ≠ 0 := hnz
    show (if a.value = 0 then none else some ((b.value - a.value) / a.value * 100)) =
      some ((b.value - a.value) / a.value * 100)
    rw [if_neg hnz']

/-- C4 witness: applied to the observation of symbol `F` at date 0 in
`fallRows`. -/
theorem detector_start_end_pct_witness :
    (⟨"F", 0, 100⟩ : Observation) ∈ lookbackData fallRows 7 ∧
    ∃ rec, mkRecord (lookbackData fallRows 7) "F" = some rec ∧
      rec ∈ mergedData fallRows 7 ∧
      (∃ a, a ∈ lookbackData fallRows 7 ∧ a.symbol = "F" ∧
        (∀ q ∈ lookbackData fallRows 7, q.symbol = "F" → a.date ≤ q.date) ∧
        rec.startDate = a.date ∧ rec.startValue = a.value) ∧
      (∃ b, b ∈ lookbackData fallRows 7 ∧ b.symbol = "F" ∧
        (∀ q ∈ lookbackData fallRows 7, q.symbol = "F" → q.date ≤ b.date) ∧
        rec.endDate = b.date ∧ rec.endValue = b.value) ∧
      (rec.startValue ≠ 0 →
        rec.pctChange =
          some ((rec.endValue - rec.startValue) / rec.startValue * 100)) :=
  ⟨by with_unfolding_all decide,
   detector_start_end_pct fallRows 7 "F" ⟨"F", 0, 100⟩ (by with_unfolding_all decide) rfl⟩

/-- C5: the significant result set is ordered by absolute percentage change
descending: every record weakly dominates all later ones. -/
theorem significant_sorted_desc (rows : List Observation) (lb : ℤ) (th : ℚ) :
    (significantChanges rows lb th).Pairwise
      (fun r1 r2 => |r2.pctChange.getD 0| ≤ |r1.pctChange.getD 0|) := by
  have h := List.sorted_insertionSort absDesc
    ((validDataDropna rows lb).filter (isSignificant th))
  exact h

/-- C6: with a threshold of at least 1, the rising and falling subsets
partition the significant result set: every significant record is in exactly
one of the two. -/
theorem rising_falling_partition (rows : List Observation) (lb : ℤ) (th : ℚ)
    (hth : 1 ≤ th) (rec : ChangeRecord) :
    (rec ∈ significantChanges rows lb th ↔
      rec ∈ risingStocks rows lb th ∨ rec ∈ fallingStocks rows lb th) ∧
    ¬(rec ∈ risingStocks rows lb th ∧ rec ∈ fallingStocks rows lb th) := by
  constructor
  · constructor
    · intro h
      obtain ⟨hvd, hsig⟩ := mem_significantChanges.mp h
      obtain ⟨p, hp, habs⟩ := isSignificant_iff.mp hsig
      have hpos : (0 : ℚ) < |p| := lt_of_lt_of_le (lt_of_lt_of_le zero_lt_one hth) habs
      have hne : p ≠ 0 := by
        intro h0
        rw [h0] at hpos
        simp at hpos
      have hget : rec.pctChange.getD 0 = p := by rw [hp]; rfl
      rcases hne.lt_or_lt with hlt | hgt
      · exact Or.inr (List.mem_filter.mpr ⟨h, by simp [hget, hlt]⟩)
      · exact Or.inl (List.mem_filter.mpr ⟨h, by simp [hget, hgt]⟩)
    · rintro (h | h) <;> exact (List.mem_filter.mp h).1
  · rintro ⟨h1, h2⟩
    have hp1 := (List.mem_filter.mp h1).2
    have hp2 := (List.mem_filter.mp h2).2
    simp only [decide_eq_true_eq] at hp1 hp2
    exact lt_irrefl 0 (lt_trans hp1 hp2)

/-- C6 witness: the partition at threshold 1 for the falling record of
`fallRows`. -/
theorem rising_falling_partition_witness :
    (1 : ℚ) ≤ 1 ∧
    ((fallRec ∈ significantChanges fallRows 7 1 ↔
      fallRec ∈ risingStocks fallRows 7 1 ∨ fallRec ∈ fallingStocks fallRows 7 1) ∧
    ¬(fallRec ∈ risingStocks fallRows 7 1 ∧ fallRec ∈ fallingStocks fallRows 7 1)) :=
  ⟨le_refl 1, rising_falling_partition fallRows 7 1 (le_refl 1) fallRec⟩

/-- C7: an empty lookback window produces the insufficient-data outcome, and
when no entity passes the minimum-coverage filter the outcome is one of the
two informational empty outcomes; neither case is an exception. -/
theorem insufficient_data_soft_outcome (rows : List Observation) (lb : ℤ) (th : ℚ) :
    (lookbackData rows lb = [] →
      runStocksPctAnalysis rows lb th = AnalysisOutcome.insufficientData) ∧
    (validData rows lb = [] →
      runStocksPctAnalysis rows lb th = AnalysisOutcome.insufficientData ∨
      runStocksPctAnalysis rows lb th = AnalysisOutcome.noSignificantChanges) := by
  constructor
  · intro h
    unfold runStocksPctAnalysis
    rw [if_pos h]
  · intro h
    have hsig : significantChanges rows lb th = [] := by
      unfold significantChanges validDataDropna
      rw [h]
      rfl
    unfold runStocksPctAnalysis
    by_cases hw : lookbackData rows lb = []
    · rw [if_pos hw]
      exact Or.inl rfl
    · rw [if_neg hw, if_pos hsig]
      exact Or.inr rfl

/-- C7 witness: the empty table gives an empty window and the
insufficient-data outcome; its empty valid set gives a soft outcome. -/
theorem insufficient_data_soft_outcome_witness :
    lookbackData ([] : List Observation) 7 = [] ∧
    runStocksPctAnalysis ([] : List Observation) 7 10 =
      AnalysisOutcome.insufficientData ∧
    validData ([] : List Observation) 7 = [] ∧
    (runStocksPctAnalysis ([] : List Observation) 7 10 =
        AnalysisOutcome.insufficientData ∨
      runStocksPctAnalysis ([] : List Observation) 7 10 =
        AnalysisOutcome.noSignificantChanges) :=
  ⟨rfl, (insufficient_data_soft_outcome ([] : List Observation) 7 10).1 rfl, rfl,
   (insufficient_data_soft_outcome ([] : List Observation) 7 10).2 rfl⟩

/-- C8: the detector is a pure function of the observations snapshot and the
parameters: any two runs on the same inputs return the same outcome, record
order included. -/
theorem detector_deterministic (rows : List Observation) (lb : ℤ) (th : ℚ)
    (r1 r2 : AnalysisOutcome)
    (h1 : r1 = runStocksPctAnalysis rows lb th)
    (h2 : r2 = runStocksPctAnalysis rows lb th) : r1 = r2 :=
  h1.trans h2.symm

/-- C8 witness: two runs on `fallRows` coincide. -/
theorem detector_deterministic_witness :
    runStocksPctAnalysis fallRows 7 1 = runStocksPctAnalysis fallRows 7 1 :=
  detector_deterministic fallRows 7 1 _ _ rfl rfl

/-- C10: for any lookback of at least one day, every significant record spans
at least one day, and an entity with exactly one observation in the window
(hence a zero-day span) is never in the significant result set. -/
theorem zero_day_span_excluded (rows : List Observation) (lb : ℤ) (th : ℚ)
    (_hlb : 1 ≤ lb) :
    (∀ rec ∈ significantChanges rows lb th, 1 ≤ rec.daysBetween) ∧
    (∀ s : String,
      ((lookbackData rows lb).filter (fun o => o.symbol == s)).length = 1 →
      ∀ rec ∈ significantChanges rows lb th, rec.symbol ≠ s) := by
  have hmain : ∀ rec ∈ significantChanges rows lb th, 1 ≤ rec.daysBetween := by
    intro rec h
    have hv := (mem_validData.mp (mem_validDataDropna.mp
      (mem_significantChanges.mp h).1).1).2
    have h1 : (1 : ℚ) ≤ (rec.daysBetween : ℚ) :=
      le_trans (le_max_left 1 ((lb : ℚ) / 2)) hv
    exact_mod_cast h1
  refine ⟨hmain, ?_⟩
  intro s hlen rec hmem heq
  have hmd := (mem_validData.mp (mem_validDataDropna.mp
    (mem_significantChanges.mp hmem).1).1).1
  have hmk := mem_mergedData hmd
  rw [heq] at hmk
  obtain ⟨a, b, ha, hb, hrec⟩ := mkRecord_fields hmk
  have hlen' : (symbolRows (lookbackData rows lb) s).length = 1 := by
    unfold symbolRows sortByDate
    rw [List.Perm.length_eq
      (List.Perm.filter _ (List.perm_insertionSort dateLE (lookbackData rows lb)))]
    exact hlen
  obtain ⟨x, hx⟩ := List.length_eq_one.mp hlen'
  have hax : a = x := by
    unfold startObs at ha
    rw [hx] at ha
    simpa using ha.symm
  have hbx : b = x := by
    unfold endObs at hb
    rw [hx] at hb
    simpa using hb.symm
  have hd : rec.daysBetween = 0 := by
    rw [hrec, hax, hbx]
    simp
  have hge := hmain rec hmem
  rw [hd] at hge
  exact absurd hge (by norm_num)

/-! Helper lemmas for the per-entity statistics. -/

theorem foldl_max_mem (l : List ℚ) : ∀ a : ℚ, l.foldl max a = a ∨ l.foldl max a ∈ l := by
  induction l with
  | nil => intro a; exact Or.inl rfl
  | cons b t ih =>
      intro a
      rw [List.foldl_cons]
      rcases ih (max a b) with h | h
      · rcases max_choice a b with hm | hm
        · exact Or.inl (h.trans hm)
        · refine Or.inr ?_
          rw [h, hm]
          exact List.mem_cons_self b t
      · exact Or.inr (List.mem_cons_of_mem b h)

theorem le_foldl_max (l : List ℚ) :
    ∀ a : ℚ, a ≤ l.foldl max a ∧ ∀ x ∈ l, x ≤ l.foldl max a := by
  induction l with
  | nil =>
      intro a
      exact ⟨le_refl a, by simp⟩
  | cons b t ih =>
      intro a
      rw [List.foldl_cons]
      obtain ⟨h1, h2⟩ := ih (max a b)
      refine ⟨le_trans (le_max_left a b) h1, ?_⟩
      intro x hx
      rcases List.mem_cons.mp hx with rfl | hx
      · exact le_trans (le_max_right a x) h1
      · exact h2 x hx

theorem foldl_min_mem (l : List ℚ) : ∀ a : ℚ, l.foldl min a = a ∨ l.foldl min a ∈ l := by
  induction l with
  | nil => intro a; exact Or.inl rfl
  | cons b t ih =>
      intro a
      rw [List.foldl_cons]
      rcases ih (min a b) with h | h
      · rcases min_choice a b with hm | hm
        · exact Or.inl (h.trans hm)
        · refine Or.inr ?_
          rw [h, hm]
          exact List.mem_cons_self b t
      · exact Or.inr (List.mem_cons_of_mem b h)

theorem foldl_min_le (l : List ℚ) :
    ∀ a : ℚ, l.foldl min a ≤ a ∧ ∀ x ∈ l, l.foldl min a ≤ x := by
  induction l with
  | nil =>
      intro a
      exact ⟨le_refl a, by simp⟩
  | cons b t ih =>
      intro a
      rw [List.foldl_cons]
      obtain ⟨h1, h2⟩ := ih (min a b)
      refine ⟨le_trans h1 (min_le_left a b), ?_⟩
      intro x hx
      rcases List.mem_cons.mp hx with rfl | hx
      · exact le_trans h1 (min_le_right a x)
      · exact h2 x hx

theorem seriesMax_spec {l : List ℚ} (h : l ≠ []) :
    seriesMax l ∈ l ∧ ∀ x ∈ l, x ≤ seriesMax l := by
  cases l with
  | nil => exact absurd rfl h
  | cons a t =>
      constructor
      · show (a :: t).foldl max ((a :: t).head?.getD 0) ∈ a :: t
        rcases foldl_max_mem (a :: t) a with h1 | h1
        · rw [show ((a :: t).head?.getD 0) = a from rfl, h1]
          exact List.mem_cons_self a t
        · exact h1
      · intro x hx
        show x ≤ (a :: t).foldl max ((a :: t).head?.getD 0)
        exact (le_foldl_max (a :: t) a).2 x hx

theorem seriesMin_spec {l : List ℚ} (h : l ≠ []) :
    seriesMin l ∈ l ∧ ∀ x ∈ l, seriesMin l ≤ x := by
  cases l with
  | nil => exact absurd rfl h
  | cons a t =>
      constructor
      · show (a :: t).foldl min ((a :: t).head?.getD 0) ∈ a :: t
        rcases foldl_min_mem (a :: t) a with h1 | h1
        · rw [show ((a :: t).head?.getD 0) = a from rfl, h1]
          exact List.mem_cons_self a t
        · exact h1
      · intro x hx
        show (a :: t).foldl min ((a :: t).head?.getD 0) ≤ x
        exact (foldl_min_le (a :: t) a).2 x hx

theorem seriesMean_mul_length {l : List ℚ} (h : l ≠ []) :
    seriesMean l * l.length = l.sum := by
  unfold seriesMean
  have hn : (l.length : ℚ) ≠ 0 := by
    have : l.length ≠ 0 := fun hh => h (List.length_eq_zero.mp hh)
    exact_mod_cast this
  exact div_mul_cancel₀ _ hn

theorem sum_sq_sub (m : ℚ) (l : List ℚ) :
    (l.map (fun x => (x - m) ^ 2)).sum
      = (l.map (fun x => x ^ 2)).sum - 2 * m * l.sum + l.length * m ^ 2 := by
  induction l with
  | nil => simp
  | cons a t ih =>
      simp only [List.map_cons, List.sum_cons, List.length_cons, ih]
      push_cast
      ring

theorem seriesVar_nonneg {l : List ℚ} (h2 : 2 ≤ l.length) : 0 ≤ seriesVar l := by
  unfold seriesVar
  apply div_nonneg
  · apply List.sum_nonneg
    intro x hx
    rcases List.mem_map.mp hx with ⟨y, _, rfl⟩
    exact sq_nonneg _
  · have hc : (2 : ℚ) ≤ l.length := by exact_mod_cast h2
    linarith

theorem seriesStd_sq {l : List ℚ} (h2 : 2 ≤ l.length) :
    seriesStd l ^ 2 = ((seriesVar l : ℚ) : ℝ) ∧ 0 ≤ seriesStd l := by
  constructor
  · exact Real.sq_sqrt (by exact_mod_cast seriesVar_nonneg h2)
  · exact Real.sqrt_nonneg _

theorem seriesVar_mul {l : List ℚ} (h2 : 2 ≤ l.length) :
    seriesVar l * ((l.length : ℚ) - 1) * l.length
      = l.length * (l.map (fun x => x ^ 2)).sum - l.sum ^ 2 := by
  have hc : (2 : ℚ) ≤ l.length := by exact_mod_cast h2
  have hn : (l.length : ℚ) ≠ 0 := by linarith
  have hn1 : (l.length : ℚ) - 1 ≠ 0 := by
    intro hE
    have : (l.length : ℚ) = 1 := by linarith
    linarith
  unfold seriesVar
  rw [div_mul_cancel₀ _ hn1, sum_sq_sub]
  unfold seriesMean
  field_simp
  ring

/-- C9: for a selected entity, the auxiliary statistics over its window rows
report the measure's mean, maximum, minimum and sample standard deviation
(`ddof = 1`, characterized by its square, the sample variance, which also
satisfies the expanded sum-of-squares formula), and "Days Tracked" counts the
rows, which equals the number of distinct dates whenever the data model's
one-row-per-date invariant holds. -/
theorem stock_stats_spec (rows : List Observation) (lb : ℤ) (s : String)
    (hne : stockTrendData rows lb s ≠ []) :
    (seriesMax (trendValues rows lb s) ∈ trendValues rows lb s ∧
      ∀ x ∈ trendValues rows lb s, x ≤ seriesMax (trendValues rows lb s)) ∧
    (seriesMin (trendValues rows lb s) ∈ trendValues rows lb s ∧
      ∀ x ∈ trendValues rows lb s, seriesMin (trendValues rows lb s) ≤ x) ∧
    seriesMean (trendValues rows lb s) * (trendValues rows lb s).length =
      (trendValues rows lb s).sum ∧
    (((stockTrendData rows lb s).map (fun o => o.date)).Nodup →
      daysTracked rows lb s =
        (((stockTrendData rows lb s).map (fun o => o.date)).dedup).length) ∧
    (2 ≤ (trendValues rows lb s).length →
      0 ≤ seriesVar (trendValues rows lb s) ∧
      seriesStd (trendValues rows lb s) ^ 2 =
        ((seriesVar (trendValues rows lb s) : ℚ) : ℝ) ∧
      0 ≤ seriesStd (trendValues rows lb s) ∧
      seriesVar (trendValues rows lb s) * (((trendValues rows lb s).length : ℚ) - 1) *
          (trendValues rows lb s).length =
        (trendValues rows lb s).length *
            ((trendValues rows lb s).map (fun x => x ^ 2)).sum -
          (trendValues rows lb s).sum ^ 2) := by
  have hvne : trendValues rows lb s ≠ [] := by
    unfold trendValues
    intro hE
    exact hne (List.map_eq_nil_iff.mp hE)
  refine ⟨seriesMax_spec hvne, seriesMin_spec hvne, seriesMean_mul_length hvne, ?_, ?_⟩
  · intro hnd
    unfold daysTracked
    rw [List.Nodup.dedup hnd, List.length_map]
  · intro h2
    exact ⟨seriesVar_nonneg h2, (seriesStd_sq h2).1, (seriesStd_sq h2).2, seriesVar_mul h2⟩

/-- C9 witness: the statistics over the two window rows of symbol `F` in
`fallRows`. -/
theorem stock_stats_spec_witness :
    stockTrendData fallRows 7 "F" ≠ [] ∧
    ((stockTrendData fallRows 7 "F").map (fun o => o.date)).Nodup ∧
    2 ≤ (trendValues fallRows 7 "F").length ∧
    ((seriesMax (trendValues fallRows 7 "F") ∈ trendValues fallRows 7 "F" ∧
      ∀ x ∈ trendValues fallRows 7 "F", x ≤ seriesMax (trendValues fallRows 7 "F")) ∧
    (seriesMin (trendValues fallRows 7 "F") ∈ trendValues fallRows 7 "F" ∧
      ∀ x ∈ trendValues fallRows 7 "F", seriesMin (trendValues fallRows 7 "F") ≤ x) ∧
    seriesMean (trendValues fallRows 7 "F") * (trendValues fallRows 7 "F").length =
      (trendValues fallRows 7 "F").sum ∧
    (((stockTrendData fallRows 7 "F").map (fun o => o.date)).Nodup →
      daysTracked fallRows 7 "F" =
        (((stockTrendData fallRows 7 "F").map (fun o => o.date)).dedup).length) ∧
    (2 ≤ (trendValues fallRows 7 "F").length →
      0 ≤ seriesVar (trendValues fallRows 7 "F") ∧
      seriesStd (trendValues fallRows 7 "F") ^ 2 =
        ((seriesVar (trendValues fallRows 7 "F") : ℚ) : ℝ) ∧
      0 ≤ seriesStd (trendValues fallRows 7 "F") ∧
      seriesVar (trendValues fallRows 7 "F") *
          (((trendValues fallRows 7 "F").length : ℚ) - 1) *
          (trendValues fallRows 7 "F").length =
        (trendValues fallRows 7 "F").length *
            ((trendValues fallRows 7 "F").map (fun x => x ^ 2)).sum -
          (trendValues fallRows 7 "F").sum ^ 2)) :=
  ⟨by with_unfolding_all decide, by with_unfolding_all decide,
   by with_unfolding_all decide,
   stock_stats_spec fallRows 7 "F" (by with_unfolding_all decide)⟩

/-- C10 witness: the single-observation entity `S` of `singleObsRows` is never
significant. -/
theorem zero_day_span_excluded_witness :
    (1 : ℤ) ≤ 7 ∧
    ((lookbackData singleObsRows 7).filter (fun o => o.symbol == "S")).length = 1 ∧
    ∀ rec ∈ significantChanges singleObsRows 7 1, rec.symbol ≠ "S" :=
  ⟨by decide, by with_unfolding_all decide,
   (zero_day_span_excluded singleObsRows 7 1 (by decide)).2 "S"
     (by with_unfolding_all decide)⟩

end HB
